import Mathlib

/-!
Verification of the IPO alarm synchronizer (`main.py`, `naver_scraper.py`,
`google_sheets_client.py`) against its specification.

Shallow embedding conventions:
* A Python field dictionary (a scraped detail mapping or a sheet row read via
  `get_all_records`) is a `Row`: an association list from field name to
  `Option String`.  An entry `(k, none)` models a key that is present with the
  Python value `None`; a key absent from the list models an absent key.
* Python `dict.get` is `pyGet` (returns `none` when the key is missing),
  Python truthiness of a fetched value is `pyTruthy`, and DataFrame column
  access that may raise `KeyError` is modelled with `Except`.
* `pd.to_datetime(..., errors=None)` as used here on ISO-style date strings is
  modelled by `parseDate`, which accepts `YYYY-MM-DD` / `YYYY.MM.DD` shaped
  strings (surrounding spaces ignored) and yields a sortable `Nat` key;
  anything else yields `none`, exactly the `NaT`-coercion behaviour the code
  relies on (`errors="coerce"`).
-/

namespace IpoAlarm

/-- A Python field dictionary: field name to optional string value.
`(k, none)` = key present with value `None`; key missing = absent key. -/
abbrev Row := List (String × Option String)

/-- Python `row.get(k)`: `none` when the key is absent, otherwise the stored
(possibly `None`) value. -/
def pyGet (r : Row) (k : String) : Option (Option String) :=
  (r.find? (fun kv => kv.1 == k)).map (fun kv => kv.2)

/-- The actual string sitting in a cell, if the key is present with a
non-`None` value.  This is what a pandas DataFrame cell holds when it is not
`NaN`. -/
def flatGet (r : Row) (k : String) : Option String :=
  (r.find? (fun kv => kv.1 == k)).bind (fun kv => kv.2)

/-- Key presence (`k in row` in Python; column membership for DataFrames). -/
def hasKey (r : Row) (k : String) : Bool :=
  r.any (fun kv => kv.1 == k)

/-- Python truthiness of `row.get(k)`: false for a missing key, a `None`
value, and the empty string. -/
def pyTruthy : Option (Option String) → Bool
  | none => false
  | some none => false
  | some (some s) => !(s == "")

/-- Python `row.get(k) == t` for a string literal `t`. -/
def pyEqStr (v : Option (Option String)) (t : String) : Bool :=
  v == some (some t)

/-! ### Date parsing (model of `pd.to_datetime(..., errors="coerce")`) -/

/-- Split a character list on a separator character (Python `str.split`). -/
def splitOnChar (c : Char) : List Char → List (List Char)
  | [] => [[]]
  | x :: xs =>
    let r := splitOnChar c xs
    if x = c then [] :: r
    else
      match r with
      | h :: t => (x :: h) :: t
      | [] => [[x]]

/-- Numeric value of a decimal digit character. -/
def digitVal (c : Char) : Option Nat :=
  if c.isDigit then some (c.toNat - 48) else none

/-- Parse a nonempty all-digit character list as a natural number. -/
def digitsToNat : List Char → Option Nat
  | [] => none
  | l => l.foldl (fun acc c => acc.bind (fun n => (digitVal c).map (fun d => n * 10 + d)))
      (some 0)

/-- Drop leading and trailing spaces. -/
def trimSpaces (l : List Char) : List Char :=
  ((l.dropWhile (fun c => c = ' ')).reverse.dropWhile (fun c => c = ' ')).reverse

/-- Parse `YYYY-MM-DD` or `YYYY.MM.DD` shaped character data into a sortable
key (`y*10000 + m*100 + d`); `none` models pandas `NaT`. -/
def parseDateChars (l : List Char) : Option Nat :=
  let l := trimSpaces l
  let parts := if l.contains '-' then splitOnChar '-' l else splitOnChar '.' l
  match parts with
  | [y, m, d] =>
    match digitsToNat (trimSpaces y), digitsToNat (trimSpaces m), digitsToNat (trimSpaces d) with
    | some yn, some mn, some dn =>
      if 1 ≤ mn && mn ≤ 12 && 1 ≤ dn && dn ≤ 31 then some (yn * 10000 + mn * 100 + dn)
      else none
    | _, _, _ => none
  | _ => none

/-- `pd.to_datetime(s, errors="coerce")` on one cell. -/
def parseDate (s : String) : Option Nat :=
  parseDateChars s.data

/-! ### Full-refresh sort (`run_full_refresh`, main.py lines 57-67)

`df['상장일_dt'] = pd.to_datetime(df['상장일'], errors='coerce')`
`df['청약일_dt'] = pd.to_datetime(df['청약일'].fillna('').str.split('~').str[0], errors='coerce')`
followed by the two-group partition and descending sorts. -/

/-- Sort key of the `상장일_dt` (listing date) column for one record:
`none` models `NaT` (absent key, `None` value, or unparseable string). -/
def listingKey (r : Row) : Option Nat :=
  (flatGet r "상장일").bind parseDate

/-- Sort key of the `청약일_dt` column: the part of the subscription field
before the first `~` (`fillna('')` then `.str.split('~').str[0]`), parsed as a
date. -/
def subKey (r : Row) : Option Nat :=
  match splitOnChar '~' ((flatGet r "청약일").getD "").data with
  | h :: _ => parseDateChars h
  | [] => none

/-- Rank realising `sort_values(..., ascending=False)` with `NaT` placed last
(`na_position='last'`): `NaT` is strictly below every real date. -/
def listRank (r : Row) : Nat :=
  match listingKey r with
  | some d => d + 1
  | none => 0

/-- Same ranking for the subscription-start column. -/
def subRank (r : Row) : Nat :=
  match subKey r with
  | some d => d + 1
  | none => 0

/-- Descending order on subscription-start rank (`sort_values(by='청약일_dt',
ascending=False)`). -/
abbrev subGE (a b : Row) : Prop := subRank b ≤ subRank a

/-- Descending order on listing-date rank (`sort_values(by='상장일_dt',
ascending=False)`). -/
abbrev listGE (a b : Row) : Prop := listRank b ≤ listRank a

instance : IsTotal Row subGE := ⟨fun _ _ => Nat.le_total _ _⟩

instance : IsTrans Row subGE := ⟨fun _ _ _ h1 h2 => Nat.le_trans h2 h1⟩

instance : IsTotal Row listGE := ⟨fun _ _ => Nat.le_total _ _⟩

instance : IsTrans Row listGE := ⟨fun _ _ _ h1 h2 => Nat.le_trans h2 h1⟩

/-- The pure sorting step of `run_full_refresh` (main.py lines 57-65): the
records without a parseable listing date (in descending subscription-start
order) followed by the records with one (in descending listing-date order).
The source sorts with pandas `sort_values` (an unstable quicksort whose order
on tied keys is unspecified); the model realises the same ordering contract
with a stable insertion sort. -/
def sortForFullRefresh (details : List Row) : List Row :=
  List.insertionSort subGE (details.filter (fun r => (listingKey r).isNone))
    ++ List.insertionSort listGE (details.filter (fun r => (listingKey r).isSome))

/-- `final_df.reindex(columns=config.FINAL_HEADER).fillna('N/A')` followed by
`.values.tolist()` for one record: project onto the canonical header, filling
missing cells with the unknown sentinel. -/
def projectRow (header : List String) (r : Row) : List String :=
  header.map (fun col => (flatGet r col).getD "N/A")

/-- `df['상장일']` / `df['청약일']` column access on `pd.DataFrame(all_details)`
(main.py lines 57-67): a `KeyError` is raised when no fetched record carries
the key at all; otherwise the pure sort runs. -/
def fullRefreshSortE (details : List Row) : Except String (List Row) :=
  if details.any (fun r => hasKey r "상장일") then
    if details.any (fun r => hasKey r "청약일") then
      Except.ok (sortForFullRefresh details)
    else Except.error "KeyError: 청약일"
  else Except.error "KeyError: 상장일"

/-! ### Incremental update: new rows (`add_new_ipo_rows`, main.py lines 84-96) -/

/-- `new_codes = [code for code in upcoming_codes if str(code) not in existing_codes]`
(main.py line 90).  Identifiers are strings, so `str` is the identity. -/
def new_codes (existing_codes upcoming_codes : List String) : List String :=
  upcoming_codes.filter (fun code => !(existing_codes.contains code))

/-- One placeholder row, projected onto the canonical header
(`{col: ('N/A' if col != '종목코드' else code) for col in config.FINAL_HEADER}`
followed by `reindex` and `.values.tolist()`, main.py lines 94-96). -/
def placeholderRow (header : List String) (code : String) : List String :=
  header.map (fun col => if col == "종목코드" then code else "N/A")

/-- The rows inserted below the header by `add_new_ipo_rows`: one placeholder
per new identifier, in the enumerator's order. -/
def new_ipo_rows (existing_codes upcoming_codes header : List String) : List (List String) :=
  (new_codes existing_codes upcoming_codes).map (placeholderRow header)

/-! ### Incremental update: incomplete rows
(`update_incomplete_ipo_details`, main.py lines 110-154) -/

/-- The incompleteness test of main.py lines 116-120:
`not row.get('청약일') or row.get('청약일') == 'N/A' or not row.get('상장일') or
row.get('상장일') in ['N/A', '미정'] or not row.get('청약경쟁률') or
row.get('청약경쟁률') == 'N/A'`. -/
def isIncomplete (r : Row) : Bool :=
  !pyTruthy (pyGet r "청약일") || pyEqStr (pyGet r "청약일") "N/A" ||
  !pyTruthy (pyGet r "상장일") || pyEqStr (pyGet r "상장일") "N/A" ||
    pyEqStr (pyGet r "상장일") "미정" ||
  !pyTruthy (pyGet r "청약경쟁률") || pyEqStr (pyGet r "청약경쟁률") "N/A"

/-- The scan of main.py lines 114-122, starting at Python index `i`.  For an
incomplete row the code evaluates `row['종목코드']`, which raises `KeyError`
when the key is absent; the appended pair is `(i + 2, row['종목코드'])`. -/
def findIncompleteAux : Nat → List Row → Except String (List (Nat × Option String))
  | _, [] => Except.ok []
  | i, r :: rest =>
    if isIncomplete r then
      match pyGet r "종목코드" with
      | none => Except.error "KeyError: 종목코드"
      | some code =>
        match findIncompleteAux (i + 1) rest with
        | Except.ok tl => Except.ok ((i + 2, code) :: tl)
        | Except.error e => Except.error e
    else findIncompleteAux (i + 1) rest

/-- `rows_to_update` as computed by `update_incomplete_ipo_details`
(main.py lines 114-122): the incomplete rows paired with their 1-based sheet
position `i + 2` (row 1 is the header). -/
def findIncompleteRows (rows : List Row) : Except String (List (Nat × Option String)) :=
  findIncompleteAux 0 rows

/-- The completeness predicate exactly as the claim and spec section 3 word
it: subscription-date, listing-date, and competition-ratio all present and
neither empty nor the unknown sentinel `N/A`.  (Spec-side definition, used to
compare the claimed trigger with the implemented one.) -/
def claimComplete (r : Row) : Bool :=
  ["청약일", "상장일", "청약경쟁률"].all (fun k =>
    match flatGet r k with
    | some s => !(s == "") && !(s == "N/A")
    | none => false)

/-- The completeness predicate the code actually implements: as
`claimComplete`, except that the listing-date value `미정` ("undetermined")
also counts as unknown. -/
def codeComplete (r : Row) : Bool :=
  claimComplete r && !(pyEqStr (pyGet r "상장일") "미정")

/-- Explicit form of the scan result: data row at 0-based index `i` is
selected iff incomplete, reported at sheet position `i + 2`, in original
order. -/
def specIncompleteRows (rows : List Row) : List (Nat × Option String) :=
  (rows.enum.filter (fun p => isIncomplete p.2)).map
    (fun p => (p.1 + 2, (pyGet p.2 "종목코드").getD none))

/-! ### Incremental update: merge patch (main.py lines 136-147) -/

/-- The cell-patch computation of main.py lines 144-147 for one store row:
`for col_name, value in details.items(): if value and value != 'N/A' and
col_name in header: ...` — a field of the fetched detail is emitted iff its
value is a non-`None`, non-empty string different from the unknown sentinel
and its name is a canonical header column. -/
def mergePatch (details : Row) (header : List String) : List (String × String) :=
  details.filterMap (fun kv =>
    match kv.2 with
    | some v =>
      if !(v == "") && !(v == "N/A") && header.contains kv.1 then some (kv.1, v)
      else none
    | none => none)

/-- Apply a sparse cell patch to a store row (the row viewed as an assignment
of a string to every field): each `(field, value)` pair overwrites that cell,
as `client.update_cells` does. -/
def applyPatch (row : String → String) (patch : List (String × String)) : String → String :=
  patch.foldl (fun acc kv => fun x => if x = kv.1 then kv.2 else acc x) row

/-- Value the last patch entry for a field would write, if any. -/
def lookupLast (p : List (String × String)) (x : String) : Option String :=
  match p with
  | [] => none
  | kv :: tl =>
    match lookupLast tl x with
    | some v => some v
    | none => if x = kv.1 then some kv.2 else none

/-! ### Parallel fetch collector (`fetch_ipo_details_parallel`, main.py lines 18-31) -/

/-- The keep-test of main.py line 26: `if details and details.get('종목명')` —
the detail dictionary is non-empty and its name field is a non-`None`,
non-empty string. -/
def usableDetail (d : Row) : Bool :=
  !d.isEmpty && pyTruthy (pyGet d "종목명")

/-- The collector of main.py lines 18-31.  `fetch code = none` models a future
whose `result()` raised (the exception is printed and the code skipped);
otherwise the returned detail dictionary is kept only when `usableDetail`
holds.  `as_completed` yields futures in a nondeterministic completion order;
the model fixes submission order, and the properties proved about it
(emptiness, membership) are order-independent. -/
def fetch_ipo_details_parallel (fetch : String → Option Row) (codes : List String) :
    List Row :=
  codes.filterMap (fun code =>
    match fetch code with
    | none => none
    | some d => if usableDetail d then some d else none)

/-! ### Full refresh orchestration (`run_full_refresh`, main.py lines 33-72) -/

/-- `all_codes = sorted(list(set(recent_codes + upcoming_codes)))`
(main.py line 41). -/
def allIpoCodes (recent upcoming : List String) : List String :=
  List.insertionSort (fun a b : String => a ≤ b) ((recent ++ upcoming).dedup)

/-- `run_full_refresh` up to its single store write.  The result is
`Except.ok none` when the function returns at line 45 or line 53, before any
store call — the sheet is left untouched; `Except.ok (some table)` is the
table handed to `client.update_worksheet` at line 71; `Except.error` models a
`KeyError` escaping from the sort phase (also before any write). -/
def run_full_refresh (header : List String) (recent upcoming : List String)
    (fetch : String → Option Row) : Except String (Option (List (List String))) :=
  let all_codes := allIpoCodes recent upcoming
  if all_codes.isEmpty then Except.ok none
  else
    let all_details := fetch_ipo_details_parallel fetch all_codes
    if all_details.isEmpty then Except.ok none
    else
      match fullRefreshSortE all_details with
      | Except.error e => Except.error e
      | Except.ok sorted => Except.ok (some (sorted.map (projectRow header)))

/-! ### Detail fetcher (`get_ipo_details`, naver_scraper.py lines 24-112)

The body of the `try` block is a straight-line sequence of dictionary writes
interleaved with scraping operations that may raise (network errors at the
initial request, attribute/parse errors later, e.g.
`finance_section.find('tbody').find_all` on a page without that section).  A
run of the body is modelled as its trace: a list of dictionary writes, cut
short by the first raising operation. -/

/-- One event inside the `try` block: a dictionary write `details[k] = v`, or
an operation raising an exception. -/
inductive ScrapeStep where
  | put (field : String) (value : Option String)
  | raised (msg : String)
deriving DecidableEq

/-- Is this step a raising operation? -/
def isRaise : ScrapeStep → Bool
  | ScrapeStep.raised _ => true
  | ScrapeStep.put _ _ => false

/-- Did some operation of the trace raise? -/
def scrapeFails (steps : List ScrapeStep) : Bool :=
  steps.any isRaise

/-- Python dictionary assignment `r[k] = v`: overwrite in place if the key
exists, else append. -/
def dictSet (r : Row) (k : String) (v : Option String) : Row :=
  if r.any (fun kv => kv.1 == k) then
    r.map (fun kv => if kv.1 == k then (k, v) else kv)
  else r ++ [(k, v)]

/-- Execute the trace: writes accumulate until the first raising operation,
whose exception is caught by the `except` clauses (lines 108-111), after
which the accumulated dictionary is returned as-is (line 112). -/
def runScrape (acc : Row) : List ScrapeStep → Row
  | [] => acc
  | ScrapeStep.put k v :: tl => runScrape (dictSet acc k v) tl
  | ScrapeStep.raised _ :: _ => acc

/-- `get_ipo_details`: starts from `details = {'종목코드': code}` (line 33) and
runs the `try`-block trace; never propagates an exception (it is a total
function of the trace). -/
def get_ipo_details (code : String) (steps : List ScrapeStep) : Row :=
  runScrape [("종목코드", some code)] steps

/-! ### Entry point (`main`, main.py lines 156-176) -/

/-- A Python `Exception` escaping the orchestration work inside the `try`
block of `main`. -/
inductive PyError where
  | fileNotFound
  | other (msg : String)
deriving DecidableEq

/-- Model of `argparse` for the single `store_true` flag `--full-refresh`
(main.py lines 158-164): each recognised occurrence sets the flag; an
unrecognised argument makes `argparse` terminate the process with exit
status 2 (`SystemExit`), before `main`'s `try` block is entered.  The
`-h`/`--help` exit path is omitted from the model. -/
def parseArgsAux (acc : Bool) : List String → Except Nat Bool
  | [] => Except.ok acc
  | a :: tl => if a == "--full-refresh" then parseArgsAux true tl else Except.error 2

/-- `parser.parse_args()` on the given argument vector. -/
def parseArgs (argv : List String) : Except Nat Bool :=
  parseArgsAux false argv

/-- `main` (main.py lines 156-176): parse arguments (outside the `try`
block), then run the selected mode; `body flag` abstracts the work inside the
`try` block (client construction plus the chosen run), which either finishes
or raises a Python `Exception`.  Result: the process exit status and the log
lines printed by the handlers. -/
def main_run (argv : List String) (body : Bool → Except PyError Unit) :
    Nat × List String :=
  match parseArgs argv with
  | Except.error c => (c, ["usage"])
  | Except.ok flag =>
    match body flag with
    | Except.ok _ => (0, [])
    | Except.error PyError.fileNotFound => (0, ["credentials file not found"])
    | Except.error (PyError.other m) => (0, ["process error: " ++ m])

/-- Did the computation finish without raising (`Except.ok`)? -/
def exceptOk {α : Type} : Except String α → Bool
  | Except.ok _ => true
  | Except.error _ => false

/-! ## Helper lemmas -/

/-- Membership in the computed cell patch, characterised. -/
theorem mergePatch_mem (details : Row) (header : List String) (k v : String) :
    (k, v) ∈ mergePatch details header ↔
      ((k, some v) ∈ details ∧ k ∈ header ∧ v ≠ "" ∧ v ≠ "N/A") := by
  unfold mergePatch
  rw [List.mem_filterMap]
  constructor
  · rintro ⟨⟨k2, ov⟩, hmem, hf⟩
    cases ov with
    | none => simp at hf
    | some w =>
      simp only at hf
      split at hf
      · rename_i hc
        injection hf with h1
        rw [Prod.mk.injEq] at h1
        obtain ⟨rfl, rfl⟩ := h1
        simp only [List.contains, Bool.and_eq_true, Bool.not_eq_true', beq_eq_false_iff_ne,
          ne_eq, List.elem_eq_mem, decide_eq_true_eq] at hc
        exact ⟨hmem, hc.2, hc.1.1, hc.1.2⟩
      · exact absurd hf (by simp)
  · rintro ⟨hd, hh, hv1, hv2⟩
    refine ⟨(k, some v), hd, ?_⟩
    simp [hv1, hv2, List.contains, hh]

/-- Pointwise description of applying a patch. -/
theorem applyPatch_eq (p : List (String × String)) (r : String → String) (x : String) :
    applyPatch r p x = (lookupLast p x).getD (r x) := by
  induction p generalizing r with
  | nil => rfl
  | cons kv tl ih =>
    show applyPatch (fun y => if y = kv.1 then kv.2 else r y) tl x = _
    rw [ih]
    cases hl : lookupLast tl x with
    | some v => simp [lookupLast, hl]
    | none =>
      by_cases hx : x = kv.1
      · subst hx
        simp [lookupLast, hl]
      · simp [lookupLast, hl, hx]

/-- Every value a patch can write occurs as an entry of the patch. -/
theorem lookupLast_mem (p : List (String × String)) (x v : String)
    (h : lookupLast p x = some v) : (x, v) ∈ p := by
  induction p with
  | nil => simp [lookupLast] at h
  | cons kv tl ih =>
    have hdef : lookupLast (kv :: tl) x =
        match lookupLast tl x with
        | some w => some w
        | none => if x = kv.1 then some kv.2 else none := rfl
    rw [hdef] at h
    cases hl : lookupLast tl x with
    | some w =>
      rw [hl] at h
      injection h with h2
      subst h2
      exact List.mem_cons_of_mem _ (ih hl)
    | none =>
      rw [hl] at h
      by_cases hx : x = kv.1
      · rw [if_pos hx] at h
        injection h with h2
        subst h2
        rw [hx]
        exact List.mem_cons_self _ _
      · rw [if_neg hx] at h
        simp at h

/-- Re-applying any patch is a no-op on the already-patched row. -/
theorem applyPatch_idem (r : String → String) (p : List (String × String)) :
    applyPatch (applyPatch r p) p = applyPatch r p := by
  funext x
  rw [applyPatch_eq, applyPatch_eq]
  cases h : lookupLast p x with
  | none => simp [applyPatch_eq, h]
  | some v => simp

/-- The DataFrame cell view is the flattening of the Python `dict.get` view. -/
theorem flatGet_pyGet (r : Row) (k : String) :
    flatGet r k = (pyGet r k).getD none := by
  unfold flatGet pyGet
  cases r.find? (fun kv => kv.1 == k) <;> simp

/-- The incomplete-row scan, characterised: when every row carries the
identifier key, it returns exactly the incomplete rows, each at sheet
position `index + 2`, in original order. -/
theorem findIncompleteAux_eq : ∀ (rows : List Row) (i : Nat),
    (∀ r ∈ rows, (pyGet r "종목코드").isSome = true) →
    findIncompleteAux i rows =
      Except.ok (((rows.enumFrom i).filter (fun p => isIncomplete p.2)).map
        (fun p => (p.1 + 2, (pyGet p.2 "종목코드").getD none)))
  | [], _, _ => rfl
  | r :: rest, i, h => by
    have hr := h r (List.mem_cons_self r rest)
    have hrest : ∀ x ∈ rest, (pyGet x "종목코드").isSome = true :=
      fun x hx => h x (List.mem_cons_of_mem r hx)
    have ih := findIncompleteAux_eq rest (i + 1) hrest
    cases hinc : isIncomplete r with
    | true =>
      cases hg : pyGet r "종목코드" with
      | none =>
        rw [hg] at hr
        exact absurd hr (by simp)
      | some code =>
        simp only [findIncompleteAux, hinc, if_true, hg, ih, List.enumFrom_cons,
          List.filter_cons, List.map_cons]
        simp [hg]
    | false =>
      simp only [findIncompleteAux, hinc, List.enumFrom_cons, List.filter_cons]
      simp [ih]

/-- The code's incompleteness test is exactly the negation of the
completeness predicate it implements (spec predicate plus the `미정`
listing-date marker). -/
theorem isIncomplete_eq_not_codeComplete (r : Row) :
    isIncomplete r = !codeComplete r := by
  unfold isIncomplete codeComplete claimComplete
  simp only [List.all_cons, List.all_nil, Bool.and_true]
  rw [flatGet_pyGet r "청약일", flatGet_pyGet r "상장일", flatGet_pyGet r "청약경쟁률"]
  rcases h1 : pyGet r "청약일" with _ | _ | s1 <;>
    rcases h2 : pyGet r "상장일" with _ | _ | s2 <;>
      rcases h3 : pyGet r "청약경쟁률" with _ | _ | s3 <;>
        (rw [Bool.eq_iff_iff]; simp [pyTruthy, pyEqStr]; try tauto)

/-! ## Claim theorems -/

/-- C1: for every existing store row and fetched detail mapping, the
merge-patch step (main.py lines 144-147) includes a field in the cell-patch
output iff the field is present in the fetched detail with a value that is
non-empty, not the unknown sentinel `N/A`, and whose name is in the canonical
header; consequently applying the patch never replaces a store value with an
empty or unknown one — every patched cell either keeps its old value or
receives a non-empty, non-`N/A` one. -/
theorem c1_merge_patch_inclusion_and_monotonic :
    (∀ (details : Row) (header : List String) (k v : String),
        (k, v) ∈ mergePatch details header ↔
          ((k, some v) ∈ details ∧ k ∈ header ∧ v ≠ "" ∧ v ≠ "N/A"))
    ∧ (∀ (row : String → String) (details : Row) (header : List String) (f : String),
        applyPatch row (mergePatch details header) f = row f ∨
          (applyPatch row (mergePatch details header) f ≠ "" ∧
            applyPatch row (mergePatch details header) f ≠ "N/A")) := by
  refine ⟨mergePatch_mem, ?_⟩
  intro row details header f
  rw [applyPatch_eq]
  cases h : lookupLast (mergePatch details header) f with
  | none => exact Or.inl rfl
  | some v =>
    have h3 := (mergePatch_mem details header f v).mp (lookupLast_mem _ _ _ h)
    exact Or.inr ⟨h3.2.2.1, h3.2.2.2⟩

/-- Witness for C1: the scenario patch of the spec — fetched
`listing-date="2024-02-01"` is included. -/
theorem c1_witness :
    ("상장일", "2024-02-01") ∈
      mergePatch
        [("종목코드", some "A1"), ("상장일", some "2024-02-01"), ("청약경쟁률", some "")]
        ["종목코드", "청약일", "상장일", "청약경쟁률"] :=
  (c1_merge_patch_inclusion_and_monotonic.1 _ _ _ _).mpr
    ⟨by decide, by decide, by decide, by decide⟩

/-- C7: applying the same merge patch twice to a store row yields the same
row as applying it once — re-application writes identical cell values. -/
theorem c7_merge_patch_idempotent (row : String → String) (details : Row)
    (header : List String) :
    applyPatch (applyPatch row (mergePatch details header)) (mergePatch details header)
      = applyPatch row (mergePatch details header) :=
  applyPatch_idem row (mergePatch details header)

/-- Witness for C7 at a concrete row, detail, and header. -/
theorem c7_witness :
    applyPatch
        (applyPatch (fun _ => "N/A")
          (mergePatch [("상장일", some "2024-02-01")] ["상장일"]))
        (mergePatch [("상장일", some "2024-02-01")] ["상장일"])
      = applyPatch (fun _ => "N/A") (mergePatch [("상장일", some "2024-02-01")] ["상장일"]) :=
  c7_merge_patch_idempotent (fun _ => "N/A") [("상장일", some "2024-02-01")] ["상장일"]

/-- C3: the new-identifier sequence of `add_new_ipo_rows` (main.py line 90)
contains exactly the enumerated upcoming identifiers not already in the
store, as a sublist of the enumerator output (original order, never
re-sorted); and every placeholder row built is for such a new identifier —
never for an identifier already present. -/
theorem c3_new_identifier_diff :
    (∀ (E F : List String) (c : String), c ∈ new_codes E F ↔ (c ∈ F ∧ c ∉ E))
    ∧ (∀ (E F : List String), (new_codes E F).Sublist F)
    ∧ (∀ (E F header : List String) (r : List String),
        r ∈ new_ipo_rows E F header →
          ∃ c, c ∈ F ∧ c ∉ E ∧ r = placeholderRow header c) := by
  refine ⟨?_, ?_, ?_⟩
  · intro E F c
    simp [new_codes, List.mem_filter, List.contains]
  · intro E F
    exact List.filter_sublist _
  · intro E F header r hr
    rw [new_ipo_rows, List.mem_map] at hr
    obtain ⟨c, hc, rfl⟩ := hr
    rw [new_codes, List.mem_filter] at hc
    refine ⟨c, hc.1, ?_, rfl⟩
    simpa [List.contains] using hc.2

/-- Witness for C3: the spec scenario — existing `{A123, B456}`, upcoming
`[B456, C789, A123]`, so `C789` is new. -/
theorem c3_witness :
    "C789" ∈ new_codes ["A123", "B456"] ["B456", "C789", "A123"] :=
  (c3_new_identifier_diff.1 ["A123", "B456"] ["B456", "C789", "A123"] "C789").mpr
    ⟨by decide, by decide⟩

/-- C2: the full-refresh sort splits into a first block of records with no
parseable listing date, descending in subscription-start rank (unparseable
dates rank lowest, hence sink to the block's end), followed by a second block
of records with a parseable listing date, descending in listing-date rank;
and the spec scenario `[X, Y, Z]` sorts to `[Z, X, Y]`. -/
theorem c2_full_refresh_sort_partition :
    (∀ details : List Row, ∃ A B : List Row,
        sortForFullRefresh details = A ++ B
        ∧ (∀ r ∈ A, listingKey r = none)
        ∧ (∀ r ∈ B, (listingKey r).isSome = true)
        ∧ List.Sorted subGE A
        ∧ List.Sorted listGE B)
    ∧ sortForFullRefresh
        [[("종목코드", some "X"), ("청약일", some "2024-03-01")],
         [("종목코드", some "Y"), ("상장일", some "2024-01-15")],
         [("종목코드", some "Z"), ("청약일", some "2024-04-01")]]
      = [[("종목코드", some "Z"), ("청약일", some "2024-04-01")],
         [("종목코드", some "X"), ("청약일", some "2024-03-01")],
         [("종목코드", some "Y"), ("상장일", some "2024-01-15")]] := by
  constructor
  · intro details
    refine ⟨List.insertionSort subGE (details.filter (fun r => (listingKey r).isNone)),
      List.insertionSort listGE (details.filter (fun r => (listingKey r).isSome)),
      rfl, ?_, ?_, List.sorted_insertionSort subGE _, List.sorted_insertionSort listGE _⟩
    · intro r hr
      rw [List.mem_insertionSort] at hr
      simpa [Option.isNone_iff_eq_none] using (List.mem_filter.mp hr).2
    · intro r hr
      rw [List.mem_insertionSort] at hr
      exact (List.mem_filter.mp hr).2
  · decide

/-- Witness for C2: the concrete scenario ordering, via the theorem. -/
theorem c2_witness :
    sortForFullRefresh
        [[("종목코드", some "X"), ("청약일", some "2024-03-01")],
         [("종목코드", some "Y"), ("상장일", some "2024-01-15")],
         [("종목코드", some "Z"), ("청약일", some "2024-04-01")]]
      = [[("종목코드", some "Z"), ("청약일", some "2024-04-01")],
         [("종목코드", some "X"), ("청약일", some "2024-03-01")],
         [("종목코드", some "Y"), ("상장일", some "2024-01-15")]] :=
  c2_full_refresh_sort_partition.2

/-- Counterexample to C4 as stated: a row whose three trigger fields are all
present, non-empty, and not `N/A` — complete under the claim's predicate —
is nevertheless selected by the scan, because the code (main.py line 118)
additionally treats the listing-date value `미정` as incomplete. -/
theorem c4_counterexample :
    claimComplete
        [("종목코드", some "000001"), ("청약일", some "2024-01-10"),
         ("상장일", some "미정"), ("청약경쟁률", some "10.5:1")] = true
    ∧ findIncompleteRows
        [[("종목코드", some "000001"), ("청약일", some "2024-01-10"),
          ("상장일", some "미정"), ("청약경쟁률", some "10.5:1")]]
      = Except.ok [(2, some "000001")] :=
  ⟨rfl, rfl⟩

/-- C4 (amended): the scan selects a row iff it fails the implemented
completeness predicate — the claim's predicate extended so that the
listing-date value `미정` also counts as unknown — and, when every row
carries the identifier key, returns exactly the selected rows paired with
their 1-based sheet position `index + 2` (header row reserved), in original
row order. -/
theorem c4_incomplete_scan :
    (∀ r : Row, isIncomplete r = !codeComplete r)
    ∧ (∀ rows : List Row, (∀ r ∈ rows, (pyGet r "종목코드").isSome = true) →
        findIncompleteRows rows = Except.ok (specIncompleteRows rows)) := by
  refine ⟨isIncomplete_eq_not_codeComplete, ?_⟩
  intro rows h
  unfold findIncompleteRows specIncompleteRows
  rw [findIncompleteAux_eq rows 0 h]
  rfl

/-- Witness for C4 at a concrete two-row sheet (one incomplete row at sheet
position 2, one complete row at position 3). -/
theorem c4_witness :
    findIncompleteRows
        [[("종목코드", some "000002"), ("청약일", some "N/A")],
         [("종목코드", some "000003"), ("청약일", some "2024-01-10"),
          ("상장일", some "2024-02-01"), ("청약경쟁률", some "10.5:1")]]
      = Except.ok (specIncompleteRows
        [[("종목코드", some "000002"), ("청약일", some "N/A")],
         [("종목코드", some "000003"), ("청약일", some "2024-01-10"),
          ("상장일", some "2024-02-01"), ("청약경쟁률", some "10.5:1")]]) :=
  c4_incomplete_scan.2 _ (by decide)

/-- Counterexample to C5 as stated: two of the four pure operations raise
`KeyError` on inputs with wholly missing keys — the incomplete-row scan when
an incomplete row lacks the identifier key (main.py line 122,
`row['종목코드']`), and the full-refresh sort when no fetched record carries a
date key (main.py lines 58-60, `df['상장일']` / `df['청약일']`). -/
theorem c5_counterexample :
    findIncompleteRows [[]] = Except.error "KeyError: 종목코드"
    ∧ fullRefreshSortE [[("종목명", some "샘플")]] = Except.error "KeyError: 상장일" :=
  ⟨rfl, rfl⟩

/-- C5 (amended): the identifier diff and placeholder construction are total;
the incomplete-row scan never raises provided every row carries the
identifier key; and the full-refresh sort never raises provided at least one
fetched record carries each date column — in particular unparseable or
absent date values never raise (they are coerced to the `NaT` rank). -/
theorem c5_graceful_degradation :
    (∀ rows : List Row, (∀ r ∈ rows, (pyGet r "종목코드").isSome = true) →
        exceptOk (findIncompleteRows rows) = true)
    ∧ (∀ details : List Row,
        details.any (fun r => hasKey r "상장일") = true →
        details.any (fun r => hasKey r "청약일") = true →
        exceptOk (fullRefreshSortE details) = true) := by
  constructor
  · intro rows h
    unfold findIncompleteRows
    rw [findIncompleteAux_eq rows 0 h]
    rfl
  · intro details h1 h2
    unfold fullRefreshSortE
    rw [h1, h2]
    rfl

/-- Witness for C5: both amended totality statements at concrete inputs with
unparseable dates. -/
theorem c5_witness :
    exceptOk (findIncompleteRows [[("종목코드", some "000004"), ("상장일", some "미정")]])
        = true
    ∧ exceptOk (fullRefreshSortE
        [[("종목명", some "샘플"), ("상장일", some "garbage"), ("청약일", none)]]) = true :=
  ⟨c5_graceful_degradation.1 _ (by decide), c5_graceful_degradation.2 _ (by decide) (by decide)⟩

/-- Python dictionary assignment preserves every key already present. -/
theorem dictSet_hasKey (r : Row) (k k2 : String) (v : Option String)
    (h : hasKey r k2 = true) : hasKey (dictSet r k v) k2 = true := by
  unfold dictSet hasKey at *
  by_cases he : r.any (fun kv => kv.1 == k) = true
  · rw [if_pos he, List.any_map]
    rw [List.any_eq_true] at h ⊢
    obtain ⟨kv0, hkv0, hp⟩ := h
    refine ⟨kv0, hkv0, ?_⟩
    show (if kv0.1 == k then (k, v) else kv0).1 == k2
    by_cases hk : (kv0.1 == k) = true
    · rw [if_pos hk]
      have e1 : kv0.1 = k := by simpa using hk
      rw [← e1]
      exact hp
    · rw [if_neg hk]
      exact hp
  · rw [if_neg he, List.any_append, h]
    rfl

/-- Every key of the accumulated dictionary survives the rest of the trace. -/
theorem runScrape_hasKey : ∀ (steps : List ScrapeStep) (acc : Row) (k : String),
    hasKey acc k = true → hasKey (runScrape acc steps) k = true
  | [], _, _, h => h
  | ScrapeStep.put k2 v :: tl, acc, k, h =>
    runScrape_hasKey tl (dictSet acc k2 v) k (dictSet_hasKey acc k2 k v h)
  | ScrapeStep.raised _ :: _, _, _, h => h

/-- A run of the `try` block returns exactly what the writes before the
first raising operation accumulated. -/
theorem runScrape_takeWhile : ∀ (steps : List ScrapeStep) (acc : Row),
    runScrape acc steps = runScrape acc (steps.takeWhile (fun s => !isRaise s))
  | [], _ => rfl
  | ScrapeStep.put k v :: tl, acc => by
    simp only [runScrape, List.takeWhile_cons, isRaise, Bool.not_false, if_true]
    exact runScrape_takeWhile tl (dictSet acc k v)
  | ScrapeStep.raised m :: tl, acc => by
    simp [runScrape, List.takeWhile_cons, isRaise]

/-- Counterexample to C6 as stated: a trace that scrapes the name field and
then raises (e.g. an `AttributeError` in the finance section after the title
was parsed) makes `get_ipo_details` return the name alongside the
identifier — not a mapping containing only the identifier field.  (Its own
docstring concedes this: on error the result may contain partial data.) -/
theorem c6_counterexample :
    scrapeFails [ScrapeStep.put "종목명" (some "샘플"), ScrapeStep.raised "AttributeError"]
        = true
    ∧ get_ipo_details "123456"
        [ScrapeStep.put "종목명" (some "샘플"), ScrapeStep.raised "AttributeError"]
      ≠ [("종목코드", some "123456")] :=
  ⟨rfl, by decide⟩

/-- C6 (amended): `get_ipo_details` never propagates an exception (it is a
total function of the scraping trace); on failure it returns the identifier
field together with exactly the fields written before the first raising
operation — possibly more than the identifier alone. -/
theorem c6_fetch_failure_partial (code : String) (steps : List ScrapeStep) :
    hasKey (get_ipo_details code steps) "종목코드" = true
    ∧ get_ipo_details code steps
        = get_ipo_details code (steps.takeWhile (fun s => !isRaise s)) :=
  ⟨runScrape_hasKey steps [("종목코드", some code)] "종목코드" (by simp [hasKey]),
   runScrape_takeWhile steps [("종목코드", some code)]⟩

/-- Witness for C6 at a concrete failing trace. -/
theorem c6_witness :
    hasKey (get_ipo_details "000006" [ScrapeStep.raised "Timeout"]) "종목코드" = true
    ∧ get_ipo_details "000006" [ScrapeStep.raised "Timeout"]
        = get_ipo_details "000006"
            ([ScrapeStep.raised "Timeout"].takeWhile (fun s => !isRaise s)) :=
  c6_fetch_failure_partial "000006" [ScrapeStep.raised "Timeout"]

/-- Counterexample to C8 as stated: `parser.parse_args()` runs before the
`try` block (main.py line 164), so a usage error — an unrecognised
argument — escapes `main` as `SystemExit` and the process exits with
status 2, not 0. -/
theorem c8_counterexample :
    (main_run ["--refresh"] (fun _ => Except.ok ())).1 = 2 ∧ (2 : Nat) ≠ 0 :=
  ⟨rfl, by decide⟩

/-- C8 (amended): whenever argument parsing succeeds, every Python
`Exception` raised by the work inside the `try` block (credential loading,
either run mode) is caught by the handlers of main.py lines 173-176, a log
line is printed, and the process exits with status 0. -/
theorem c8_main_catches_exceptions (argv : List String) (flag : Bool)
    (body : Bool → Except PyError Unit) (h : parseArgs argv = Except.ok flag) :
    (main_run argv body).1 = 0 := by
  cases hb : body flag with
  | ok _ => simp [main_run, h, hb]
  | error e => cases e <;> simp [main_run, h, hb]

/-- Witness for C8: with no arguments, a body raising a generic `Exception`
still exits 0. -/
theorem c8_witness :
    (main_run [] (fun _ => Except.error (PyError.other "boom"))).1 = 0 :=
  c8_main_catches_exceptions [] false (fun _ => Except.error (PyError.other "boom")) rfl

/-- C9: a full refresh that collects no identifiers, or whose parallel fetch
keeps no usable detail mapping, returns at main.py line 45 resp. line 53 —
before the single store write at line 71 (`Except.ok none`), so the sheet is
left untouched and is never cleared by an empty scrape. -/
theorem c9_empty_scrape_no_write (header recent upcoming : List String)
    (fetch : String → Option Row) :
    (allIpoCodes recent upcoming = [] →
        run_full_refresh header recent upcoming fetch = Except.ok none)
    ∧ (fetch_ipo_details_parallel fetch (allIpoCodes recent upcoming) = [] →
        run_full_refresh header recent upcoming fetch = Except.ok none) := by
  constructor
  · intro h
    simp [run_full_refresh, h]
  · intro h
    simp [run_full_refresh, h]

/-- Witness for C9: an empty scrape produces no write. -/
theorem c9_witness :
    run_full_refresh [] [] [] (fun _ => none) = Except.ok none :=
  (c9_empty_scrape_no_write [] [] [] (fun _ => none)).1 (by decide)

/-- C10: the parallel-fetch collector keeps a fetched detail mapping iff some
submitted code fetched it and its name field (`종목명`) is present, non-`None`
and non-empty (main.py line 26); a mapping with an absent or empty name field
is silently dropped and so contributes no full-refresh row and no incremental
cell patch — both consumers read only this collector's output. -/
theorem c10_collector_requires_name (fetch : String → Option Row)
    (codes : List String) (d : Row) :
    d ∈ fetch_ipo_details_parallel fetch codes ↔
      ((∃ c ∈ codes, fetch c = some d) ∧ usableDetail d = true) := by
  unfold fetch_ipo_details_parallel
  rw [List.mem_filterMap]
  constructor
  · rintro ⟨c, hc, hf⟩
    cases hfc : fetch c with
    | none =>
      rw [hfc] at hf
      exact absurd hf (by simp)
    | some d2 =>
      rw [hfc] at hf
      have hf2 : (if usableDetail d2 = true then some d2 else none) = some d := hf
      by_cases hu : usableDetail d2 = true
      · rw [if_pos hu] at hf2
        injection hf2 with h
        subst h
        exact ⟨⟨c, hc, hfc⟩, hu⟩
      · rw [if_neg hu] at hf2
        exact absurd hf2 (by simp)
  · rintro ⟨⟨c, hc, hfc⟩, hu⟩
    refine ⟨c, hc, ?_⟩
    rw [hfc]
    simp [hu]

/-- Witness for C10: a detail with a non-empty name field is kept. -/
theorem c10_witness :
    [("종목명", some "샘플"), ("종목코드", some "000005")]
      ∈ fetch_ipo_details_parallel
          (fun _ => some [("종목명", some "샘플"), ("종목코드", some "000005")])
          ["000005"] :=
  (c10_collector_requires_name _ _ _).mpr
    ⟨⟨"000005", by decide, rfl⟩, by decide⟩

end IpoAlarm
